import Mathlib

/-!
Verification of the packlet dependency-resolution core (module resolver,
tsconfig alias matching, comment stripping, and the dependency traverser)
against a shallow embedding of the Rust sources.

Strings are modelled through their character lists (`String.data`), and
filesystem paths as plain strings, with the `std::path::Path` operations the
code uses (`parent`, `join`, `extension`, `with_extension`, `components`)
implemented over the character list of the path.  The filesystem itself is an
abstract record of the four operations of the `FileSystemProvider` trait
(`src/core/fs.rs`).
-/

namespace Packlet

/-- Splits a character list at every occurrence of `c` (the separator is
dropped); mirrors `str::split`.  The result is always nonempty. -/
def splitOnCharL (c : Char) : List Char → List (List Char)
  | [] => [[]]
  | x :: xs =>
    match splitOnCharL c xs with
    | [] => if x = c then [[], []] else [[x]]
    | h :: t => if x = c then [] :: h :: t else (x :: h) :: t

/-- `str::starts_with` over strings. -/
def strStartsWith (s p : String) : Bool := p.data.isPrefixOf s.data

/-- `str::ends_with` over strings. -/
def strEndsWith (s p : String) : Bool := p.data.isSuffixOf s.data

/-- `str::contains(char)` over strings. -/
def strContainsChar (s : String) (c : Char) : Bool := s.data.contains c

/-- `str::contains(&str)` (substring test) over strings. -/
def strContainsSub (s pat : String) : Bool :=
  s.data.tails.any (fun t => pat.data.isPrefixOf t)

/-- `str::replace(char, &str)`: every occurrence of `c` replaced by `r`. -/
def replaceCharL (c : Char) (r : List Char) : List Char → List Char
  | [] => []
  | x :: xs => if x = c then r ++ replaceCharL c r xs else x :: replaceCharL c r xs

/-- A path is absolute when it begins with `/` (unix model). -/
def isAbsolute (p : String) : Bool :=
  match p.data with
  | '/' :: _ => true
  | _ => false

/-- `Path::file_name`, simplified to the final `/`-separated piece of the
path string (the sources never call it on paths with trailing slashes). -/
def fileNameL (p : List Char) : List Char :=
  (splitOnCharL '/' p).getLastD []

/-- `Path::extension` of a file name: the portion after the last `.`,
`none` when there is no `.` or the only `.` is the leading character
(`.hidden` has no extension), matching `std::path` semantics. -/
def extensionOfFileName (fn : List Char) : Option (List Char) :=
  match splitOnCharL '.' fn with
  | [] => none
  | [_] => none
  | [[], _] => none
  | parts => parts.getLast?

/-- `Path::extension` over the whole path. -/
def pathExtensionL (p : List Char) : Option (List Char) :=
  extensionOfFileName (fileNameL p)

/-- `Path::extension` returning a string. -/
def pathExtension (p : String) : Option String :=
  (pathExtensionL p.data).map List.asString

/-- `Path::with_extension ext`: strips the current extension (if any) and
appends `.ext`. -/
def withExtension (p : String) (ext : String) : String :=
  let l := p.data
  let base :=
    match pathExtensionL l with
    | some e => l.take (l.length - (e.length + 1))
    | none => l
  List.asString (base ++ '.' :: ext.data)

/-- `Path::join`: an absolute right operand replaces the left; otherwise the
two are joined with a `/` separator (as `PathBuf::push` does). -/
def pathJoin (p q : String) : String :=
  if isAbsolute q then q
  else if p.data = [] then q
  else if p.data.getLast? = some '/' then List.asString (p.data ++ q.data)
  else List.asString (p.data ++ '/' :: q.data)

/-- `Path::parent`: the path with its final component removed.  `none` for
the root and the empty path; a single relative component has parent `""`. -/
def parentDir (p : String) : Option String :=
  if p.data = [] ∨ p.data = ['/'] then none
  else
    match p.data.reverse.dropWhile (fun c => c ≠ '/') with
    | [] => some ""
    | '/' :: rest => if rest = [] then some "/" else some (List.asString rest.reverse)
    | _ => none

/-- `Path::components`, restricted to what the traverser inspects: the list
of normal and parent-dir components (`""` pieces from the root or duplicate
separators and `.` pieces are skipped, as the `Components` iterator does;
`".."` is kept and plays the role of `Component::ParentDir`). -/
def pathComponents (p : String) : List (List Char) :=
  (splitOnCharL '/' p.data).filter (fun c => c ≠ [] ∧ c ≠ ['.'])

/-- Lexical absolutization as performed by the `path-absolutize` crate on an
absolute input: `.` components are dropped and `..` pops the previous normal
component.  (The sources only absolutize paths that are already absolute,
since every join is against an absolute `from_file` directory.) -/
def absolutize (p : String) : String :=
  let comps := pathComponents p
  let stack := comps.foldl
    (fun (acc : List (List Char)) c =>
      if c = ['.', '.'] then acc.dropLast else acc ++ [c])
    []
  if isAbsolute p then
    List.asString ('/' :: (stack.map List.asString).foldr
      (fun s acc => if acc = [] then s.data else s.data ++ '/' :: acc) [])
  else
    List.asString ((stack.map List.asString).foldr
      (fun s acc => if acc = [] then s.data else s.data ++ '/' :: acc) [])

/-! ## Filesystem capability and resolver data model -/

/-- The four operations of the `FileSystemProvider` trait (`src/core/fs.rs`):
read errors are `none`, existence and directory tests are plain booleans
(the trait coerces their errors to `false`), and `canonicalize` may fail.
`canonicalize` is the OS operation resolving symlinks and `.`/`..`; it is
kept abstract here, exactly as the trait keeps it abstract in the sources. -/
structure Fs where
  readFile : String → Option String
  pathExists : String → Bool
  isDirectory : String → Bool
  canonicalize : String → Option String

/-- `ResolvedImport` (`src/core/language.rs`). -/
structure ResolvedImport where
  path : String
  is_local : Bool
  is_asset : Bool
deriving DecidableEq

/-- Compiled `TsConfig` view (`src/adapters/javascript/tsconfig_parser.rs`):
`paths` is a `HashMap` in the sources, whose iteration order is unspecified;
it is modelled as an association list, so one fixed iteration order. -/
structure TsConfig where
  base_url : Option String
  paths : List (String × List String)
  config_dir : String

/-- `TsConfig::match_pattern`: an exact pattern matches on equality; a
single-`*` pattern matches when the specifier has the pattern's pieces as
its start and end, and each replacement has its `*`s substituted by the
captured middle; every candidate is joined against `baseUrl` (or the config
directory). -/
def match_pattern (tc : TsConfig) (specifier pattern : String)
    (replacements : List String) : Option (List String) :=
  let base_dir := tc.base_url.getD tc.config_dir
  if strContainsChar pattern '*' then
    match splitOnCharL '*' pattern.data with
    | [pre, suf] =>
      if strStartsWith specifier (List.asString pre) ∧
         strEndsWith specifier (List.asString suf) then
        let wildcard := (specifier.data.take (specifier.data.length - suf.length)).drop pre.length
        some (replacements.map (fun repl =>
          let resolved := if strContainsChar repl '*' then
            List.asString (replaceCharL '*' wildcard repl.data) else repl
          pathJoin base_dir resolved))
      else none
    | _ => none
  else if specifier = pattern then
    some (replacements.map (fun repl => pathJoin base_dir repl))
  else none

/-- `TsConfig::resolve_alias`: the first pattern (in map iteration order)
that matches wins. -/
def resolve_alias (tc : TsConfig) (specifier : String) : Option (List String) :=
  tc.paths.findSome? (fun pr => match_pattern tc specifier pr.1 pr.2)

/-! ## JsResolver (`src/adapters/javascript/resolver.rs`) -/

/-- The fixed `ASSET_EXTENSIONS` table of `JsResolver::is_asset_import`. -/
def ASSET_EXTENSIONS : List String :=
  ["css", "scss", "sass", "less", "styl", "stylus",
   "png", "jpg", "jpeg", "gif", "svg", "webp", "ico",
   "woff", "woff2", "ttf", "otf", "eot",
   "mp4", "webm", "ogg", "mp3", "wav",
   "pdf", "doc", "docx", "xls", "xlsx",
   "json", "xml", "yaml", "yml", "toml",
   "md", "mdx",
   "txt", "csv"]

/-- The fixed `KNOWN_EXTERNALS` table of `JsResolver::is_external_package`. -/
def KNOWN_EXTERNALS : List String :=
  ["react", "react-dom", "react-router", "react-router-dom", "redux",
   "@reduxjs/", "@mui/", "@material-ui/", "@emotion/", "@testing-library/",
   "axios", "lodash", "lodash-es", "@tanstack/", "framer-motion",
   "@radix-ui/", "next/", "vue", "svelte", "@angular/", "@types/",
   "typescript", "vite", "webpack", "rollup"]

/-- The fixed `COMMON_ALIASES` table of `JsResolver::is_configured_alias`. -/
def COMMON_ALIASES : List String :=
  ["@/", "~/", "@components/", "@utils/", "@assets/", "@hooks/",
   "@services/", "@store/", "@styles/"]

/-- Substring test over character lists (`str::contains(&str)`). -/
def containsSubL (pat l : List Char) : Bool :=
  l.tails.any (fun t => pat.isPrefixOf t)

/-- `JsResolver::is_asset_import`, body: if the specifier has a path
extension, the answer is exactly whether the lowercased extension is in
`ASSET_EXTENSIONS` (an early return); only extension-less specifiers reach
the `.module.` and `?`-suffix checks, where the `?` branch recurses on the
part before the first `?`.  The fuel argument only makes the recursion
structural: the recursive argument never contains `?`, so the recursion
depth is at most two and `length + 1` fuel is never exhausted. -/
def isAssetImportAux : Nat → List Char → Bool
  | 0, _ => false
  | n + 1, l =>
    match pathExtensionL l with
    | some e => ASSET_EXTENSIONS.any (fun a => a.data = e.map Char.toLower)
    | none =>
      if containsSubL ".module.".data l then true
      else if l.contains '?' then
        isAssetImportAux n (l.takeWhile (fun c => c ≠ '?'))
      else false

/-- `JsResolver::is_asset_import` over strings. -/
def is_asset_import (specifier : String) : Bool :=
  isAssetImportAux (specifier.data.length + 1) specifier.data

/-- `JsResolver::is_configured_alias`. -/
def is_configured_alias (specifier : String) : Bool :=
  COMMON_ALIASES.any (fun a => strStartsWith specifier a)

/-- `JsResolver::is_external_package`.  The tsconfig argument stands for the
result of `TsConfigParser::find_and_parse_config(from_file)`.  The check
order is the source's: `node_modules/` start, the `KNOWN_EXTERNALS` table,
relative/absolute starts, tsconfig aliases, `COMMON_ALIASES`, and finally a
`node_modules` path-component test on `from_dir.join(specifier)`; bare
specifiers default to external. -/
def is_external_package (tsconfig : Option TsConfig) (specifier : String)
    (from_file : String) : Bool :=
  if strStartsWith specifier "node_modules/" then true
  else if KNOWN_EXTERNALS.any (fun e => strStartsWith specifier e) then true
  else if (match specifier.data with
           | '.' :: _ => true
           | '/' :: _ => true
           | _ => false) then false
  else if (match tsconfig with
           | some tc => (resolve_alias tc specifier).isSome
           | none => false) then false
  else if is_configured_alias specifier then false
  else
    let from_dir := (parentDir from_file).getD "/"
    let potential_path := pathJoin from_dir specifier
    if (pathComponents potential_path).contains "node_modules".data then true
    else true

/-- The fixed extension search order of
`JsResolver::resolve_file_with_extensions`. -/
def EXTENSIONS : List String := ["tsx", "ts", "jsx", "js", "mjs", "cjs", "json"]

/-- `JsResolver::resolve_file_with_extensions`: (1) an existing
non-directory at the path itself wins; (2) otherwise each extension in order
is tried with `with_extension`; (3) otherwise, when the path is an existing
directory, `index.ext` inside it is tried for each extension; (4) otherwise,
when the original path had no extension, plain string concatenation
`path.ext` is tried for each extension (existence only). -/
def resolve_file_with_extensions (fs : Fs) (path : String) : Option String :=
  if fs.pathExists path ∧ ¬ fs.isDirectory path then some path
  else
    match EXTENSIONS.findSome? (fun ext =>
      let new_path := withExtension path ext
      if fs.pathExists new_path ∧ ¬ fs.isDirectory new_path then some new_path
      else none) with
    | some p => some p
    | none =>
      match (if fs.pathExists path ∧ fs.isDirectory path then
          EXTENSIONS.findSome? (fun ext =>
            let index_path := pathJoin path ("index." ++ ext)
            if fs.pathExists index_path then some index_path else none)
        else none) with
      | some p => some p
      | none =>
        if (pathExtension path).isNone then
          EXTENSIONS.findSome? (fun ext =>
            let new_path := path ++ "." ++ ext
            if fs.pathExists new_path then some new_path else none)
        else none

/-- `JsResolver::resolve`: external specifiers yield `none`; asset
specifiers are looked up at `from_dir.join(specifier)` and yield an
absolutized local asset; otherwise tsconfig alias candidates are tried
through the extension search, and finally plain relative resolution.  Every
successful resolution is wrapped after `absolutize` (the `path-absolutize`
crate), which resolves `.`/`..` lexically but does not touch symlinks.  The
`anyhow::Result` layer is dropped: `absolutize` is modelled as total, and the
tsconfig argument stands for an error-free config lookup, so the source's
error paths cannot fire in the model. -/
def resolve (tsconfig : Option TsConfig) (fs : Fs) (specifier : String)
    (from_file : String) : Option ResolvedImport :=
  if is_external_package tsconfig specifier from_file then none
  else if is_asset_import specifier then
    let from_dir := (parentDir from_file).getD "/"
    let asset_path := pathJoin from_dir specifier
    if fs.pathExists asset_path then
      some ⟨absolutize asset_path, true, true⟩
    else none
  else
    let aliasResult : Option ResolvedImport :=
      match tsconfig with
      | some tc =>
        match resolve_alias tc specifier with
        | some resolved_paths =>
          match resolved_paths.findSome? (fun base =>
            resolve_file_with_extensions fs base) with
          | some resolved => some ⟨absolutize resolved, true, false⟩
          | none => none
        | none => none
      | none => none
    match aliasResult with
    | some r => some r
    | none =>
      let from_dir := (parentDir from_file).getD "/"
      let base_path := pathJoin from_dir specifier
      match resolve_file_with_extensions fs base_path with
      | some p => some ⟨absolutize p, true, false⟩
      | none => none

/-! ## TsConfigParser::strip_json_comments
(`src/adapters/javascript/tsconfig_parser.rs`, lines 231-287) -/

/-- The inner loop of the block-comment branch: characters are consumed
until a `*` immediately followed by `/`, tracking the previous character
(seeded with a space); the remainder after the closing `/` is returned. -/
def dropBlockComment : Char → List Char → List Char
  | _, [] => []
  | prev, c :: rest => if prev = '*' ∧ c = '/' then rest else dropBlockComment c rest

/-- `TsConfigParser::strip_json_comments`, as a state machine over the
character list with the `in_string` and `escape_next` flags.  A `//` outside
a string consumes up to and including the newline and emits a single `\n`
(nothing when the comment runs to the end of input); a `/*` outside a string
consumes through the first `*/`.  Every step consumes at least one input
character, so the `length + 1` fuel that `strip_json_comments` passes is
never exhausted; the fuel argument only makes the recursion structural. -/
def stripAux : Nat → Bool → Bool → List Char → List Char
  | 0, _, _, _ => []
  | _ + 1, _, _, [] => []
  | n + 1, inString, escapeNext, c :: rest =>
    if escapeNext then c :: stripAux n inString false rest
    else if c = '\\' ∧ inString then c :: stripAux n inString true rest
    else if c = '"' ∧ ¬ inString then '"' :: stripAux n true false rest
    else if c = '"' ∧ inString then '"' :: stripAux n false false rest
    else if c = '/' ∧ ¬ inString then
      match rest with
      | '/' :: rest2 =>
        (match rest2.dropWhile (fun x => x ≠ '\n') with
         | [] => []
         | _ :: rest3 => '\n' :: stripAux n inString escapeNext rest3)
      | '*' :: rest2 => stripAux n inString escapeNext (dropBlockComment ' ' rest2)
      | _ => c :: stripAux n inString escapeNext rest
    else c :: stripAux n inString escapeNext rest

/-- `TsConfigParser::strip_json_comments` over strings. -/
def strip_json_comments (s : String) : String :=
  List.asString (stripAux (s.data.length + 1) false false s.data)

/-- The comment-free predicate of the claim, under the same string-literal
and escape discipline as the stripper: scanning with the `in_string` and
`escape_next` flags never meets a `/` outside a string literal that is
immediately followed by `/` or `*`. -/
def commentFreeAux : Bool → Bool → List Char → Bool
  | _, _, [] => true
  | inString, escapeNext, c :: rest =>
    if escapeNext then commentFreeAux inString false rest
    else if c = '\\' ∧ inString then commentFreeAux inString true rest
    else if c = '"' ∧ ¬ inString then commentFreeAux true false rest
    else if c = '"' ∧ inString then commentFreeAux false false rest
    else if c = '/' ∧ ¬ inString then
      match rest with
      | '/' :: _ => false
      | '*' :: _ => false
      | _ => commentFreeAux inString false rest
    else commentFreeAux inString false rest

/-- A text with no `//` line comment and no `/* ... */` block comment
outside string literals. -/
def commentFree (s : String) : Bool := commentFreeAux false false s.data

/-! ## Dependency traverser (`src/core/traverser.rs`)

The Rust traverser is a cooperative, task-based exploration: the child
futures created for one file are only polled at the parent's
`try_join_all`, and no task is spawned, so the whole traversal runs inside
one task and the children execute sequentially up to interleaving at
suspension points.  The model below is the sequential determinization:
children run in source order, left to right, which is one legal execution.
The semaphore (which only bounds parallelism) and the wall-clock stuck
detector (`TraversalStats::check_health`, purely time-based) have no
observable effect in this determinization and are not modelled. -/

/-- `ImportKind` (`src/core/language.rs`). -/
inductive ImportKind where
  | esModule
  | commonJs
  | dynamic
  | typeOnly
  | asset
  | custom (name : String)
deriving DecidableEq

/-- `ImportStatement` (`src/core/language.rs`). -/
structure ImportStatement where
  specifier : String
  kind : ImportKind
  line : Nat
  column : Nat
  raw : String
deriving DecidableEq

/-- `DependencyGraph` (`src/core/traverser.rs`).  `adj_list` is a `HashMap`
in the sources; it is modelled as an association list in insertion order
(the claims do not depend on map iteration order), and the two `DashSet`s
as duplicate-free lists. -/
structure DependencyGraph where
  entry_point : String
  adj_list : List (String × List (String × ImportStatement))
  circular_deps : List String
  assets : List String
deriving DecidableEq

/-- `DependencyGraph::new`. -/
def DependencyGraph.new (entry : String) : DependencyGraph :=
  ⟨entry, [], [], []⟩

/-- `adj_list.entry(from).or_default().push((to, import))`. -/
def adjPush : List (String × List (String × ImportStatement)) → String →
    String × ImportStatement → List (String × List (String × ImportStatement))
  | [], k, e => [(k, [e])]
  | (k', es) :: rest, k, e =>
    if k' = k then (k', es ++ [e]) :: rest else (k', es) :: adjPush rest k e

/-- `DependencyGraph::add_edge`. -/
def add_edge (g : DependencyGraph) (src dst : String) (imp : ImportStatement) :
    DependencyGraph :=
  { g with adj_list := adjPush g.adj_list src (dst, imp) }

/-- `DependencyGraph::mark_circular` (`DashSet::insert`). -/
def mark_circular (g : DependencyGraph) (p : String) : DependencyGraph :=
  if g.circular_deps.contains p then g
  else { g with circular_deps := g.circular_deps ++ [p] }

/-- `DependencyGraph::add_asset` (`DashSet::insert`). -/
def add_asset (g : DependencyGraph) (p : String) : DependencyGraph :=
  if g.assets.contains p then g else { g with assets := g.assets ++ [p] }

/-- `PathScore` (`src/core/traverser.rs`). -/
structure PathScore where
  depth : Nat
  nodeModulesCount : Nat
  parentTraversals : Nat
  totalComponents : Nat

/-- `Path::strip_prefix`, component-wise: succeeds when the base's
components are a prefix of the path's components and the two paths agree on
absoluteness, returning the remaining components. -/
def stripPathPieces (path base : String) : Option (List (List Char)) :=
  if isAbsolute path = isAbsolute base then
    let pc := pathComponents path
    let bc := pathComponents base
    if bc.isPrefixOf pc then some (pc.drop bc.length) else none
  else none

/-- `PathScore::from_path`: `..` components count as parent traversals,
normal components are counted and checked for `node_modules`, and the depth
is the component count of the path relative to the entry's parent (0 when
`strip_prefix` fails, as the `Default` leaves it). -/
def PathScore.from_path (path entry : String) : PathScore :=
  let comps := pathComponents path
  let parents := (comps.filter (fun c => c = ['.', '.'])).length
  let normals := comps.filter (fun c => c ≠ ['.', '.'])
  let nm := (normals.filter (fun c => c = "node_modules".data)).length
  let depth :=
    match parentDir entry with
    | some entryParent =>
      match stripPathPieces path entryParent with
      | some rel => rel.length
      | none => 0
    | none => 0
  ⟨depth, nm, parents, normals.length⟩

/-- `PathScore::should_skip`. -/
def PathScore.should_skip (s : PathScore) : Bool :=
  3 < s.parentTraversals ∨ 0 < s.nodeModulesCount ∨
    20 < s.totalComponents ∨ 15 < s.depth

/-- The fatal traversal errors (`anyhow` messages in the sources). -/
inductive TraverseError where
  | fileLimit (processed limit : Nat)
  | canonicalizeFail (path : String)
  | consecutiveErrors (count : Nat)
  | totalErrors (count limit : Nat)
deriving DecidableEq

/-- `CircuitBreaker::new(1000, 50)` limits, fixed in
`DependencyTraverser::new`. -/
def MAX_TOTAL_ERRORS : Nat := 1000

/-- Consecutive-error limit of the circuit breaker. -/
def MAX_CONSECUTIVE_ERRORS : Nat := 50

/-- Traverser configuration: `with_max_depth` / `with_max_files` (defaults
50 and 10000). -/
structure TravConfig where
  maxDepth : Nat := 50
  maxFiles : Nat := 10000

/-- The injected capabilities the traversal runs against: the filesystem,
the tsconfig lookup (`TsConfigParser::find_and_parse_config`, whose JSON
parsing is out of scope), the AST import extraction
(`JsParser::parse`, performed by the external SWC library; `none` is a
parse error), and the glob-based `should_exclude_path` predicate (whose
pattern engine is the external `glob` crate). -/
structure TravContext where
  fs : Fs
  tsconfigFor : String → Option TsConfig
  parseImports : String → String → Option (List ImportStatement)
  shouldExclude : String → Bool

/-- `supported_extensions` of the JS adapter
(`src/adapters/javascript/mod.rs`). -/
def SUPPORTED_EXTENSIONS : List String :=
  ["js", "mjs", "cjs", "ts", "tsx", "jsx", "d.ts", "vue", "svelte"]

/-- `LanguageAdapter::can_parse_file` (`src/core/language.rs`): the path
extension must be a supported one. -/
def can_parse_file (p : String) : Bool :=
  match pathExtension p with
  | some e => SUPPORTED_EXTENSIONS.contains e
  | none => false

/-- `JsAdapter::resolve_import`: delegates to `JsResolver::resolve` with the
specifier and the importing file. -/
def resolveImport (ctx : TravContext) (fromFile : String)
    (imp : ImportStatement) : Option ResolvedImport :=
  resolve (ctx.tsconfigFor fromFile) ctx.fs imp.specifier fromFile

/-- The shared traversal state: the two `DashSet`s, the `file_count`
atomic, the circuit-breaker counters, and the graph behind its mutex. -/
structure TravState where
  visited : List String
  in_progress : List String
  fileCount : Nat
  cbTotal : Nat
  cbConsec : Nat
  graph : DependencyGraph
deriving DecidableEq

/-- `CircuitBreaker::record_error`: both counters increment; the
consecutive limit is checked first, then the total limit. -/
def record_error (st : TravState) : TravState × Option TraverseError :=
  let total := st.cbTotal + 1
  let consec := st.cbConsec + 1
  let st := { st with cbTotal := total, cbConsec := consec }
  if MAX_CONSECUTIVE_ERRORS ≤ consec then (st, some (.consecutiveErrors consec))
  else if MAX_TOTAL_ERRORS ≤ total then (st, some (.totalErrors total MAX_TOTAL_ERRORS))
  else (st, none)

/-- `CircuitBreaker::record_success`. -/
def record_success (st : TravState) : TravState :=
  { st with cbConsec := 0 }

/-- The import loop of `traverse_recursive` (lines 462-493): each import is
resolved; a local resolution appends an edge, an asset is recorded and not
recursed into, a local non-asset is queued as a pending child future.  The
pending list preserves source order. -/
def processImports (ctx : TravContext) (canonical : String) :
    List ImportStatement → TravState → TravState × List String
  | [], st => (st, [])
  | imp :: rest, st =>
    match resolveImport ctx canonical imp with
    | none => processImports ctx canonical rest st
    | some r =>
      if r.is_local then
        let st := { st with graph := add_edge st.graph canonical r.path imp }
        if r.is_asset then
          let st := { st with graph := add_asset st.graph r.path }
          processImports ctx canonical rest st
        else
          let (st', pending) := processImports ctx canonical rest st
          (st', r.path :: pending)
      else processImports ctx canonical rest st

/-- `try_join_all` over the pending child futures, sequentially: the first
child error stops the join and is returned (the remaining futures are
dropped); state mutations made before the failure persist, as they do
through the shared `Arc` state in the sources. -/
def runChildrenAux
    (step : String → TravState → TravState × Option TraverseError) :
    List String → TravState → TravState × Option TraverseError
  | [], st => (st, none)
  | c :: cs, st =>
    match step c st with
    | (st', some e) => (st', some e)
    | (st', none) => runChildrenAux step cs st'

/-- One unfolding of `DependencyTraverser::traverse_recursive`, in the
source's order: depth guard, exclusion guard, `PathScore` guard, the
fetch-and-increment of `file_count` with the max-files check, then
canonicalization, the `visited` / `in_progress` checks and inserts, the
parseability check, the read and parse with circuit-breaker accounting
(note: a circuit-breaker trip propagates before `in_progress` is cleaned
up, exactly as the `?` in the sources does), the import loop, and the child
join whose error is logged and discarded (lines 495-500).  The wall-clock
health check (every 100 files) always succeeds in the model, time being
out of scope. -/
def traverseStep (cfg : TravConfig) (ctx : TravContext)
    (recur : String → Nat → TravState → TravState × Option TraverseError)
    (file : String) (depth : Nat) (st : TravState) :
    TravState × Option TraverseError :=
  if cfg.maxDepth ≤ depth then (st, none)
  else if ctx.shouldExclude file then (st, none)
  else if (PathScore.from_path file st.graph.entry_point).should_skip then (st, none)
  else
    let current := st.fileCount
    let st := { st with fileCount := current + 1 }
    if cfg.maxFiles ≤ current then
      (st, some (.fileLimit (current + 1) cfg.maxFiles))
    else
      match ctx.fs.canonicalize file with
      | none => (st, some (.canonicalizeFail file))
      | some canonical =>
        if st.visited.contains canonical then (st, none)
        else if st.in_progress.contains canonical then
          ({ st with graph := mark_circular st.graph canonical }, none)
        else
          let st := { st with visited := st.visited ++ [canonical],
                              in_progress := st.in_progress ++ [canonical] }
          if ¬ can_parse_file canonical then
            ({ st with in_progress := st.in_progress.erase canonical }, none)
          else
            match ctx.fs.readFile canonical with
            | none =>
              (match record_error st with
               | (st', some e) => (st', some e)
               | (st', none) =>
                 ({ st' with in_progress := st'.in_progress.erase canonical }, none))
            | some content =>
              let st := record_success st
              match ctx.parseImports canonical content with
              | none =>
                (match record_error st with
                 | (st', some e) => (st', some e)
                 | (st', none) =>
                   ({ st' with in_progress := st'.in_progress.erase canonical }, none))
              | some imports =>
                let st := record_success st
                match processImports ctx canonical imports st with
                | (st, pending) =>
                  match runChildrenAux (fun f s => recur f (depth + 1) s) pending st with
                  | (st, _) =>
                    ({ st with in_progress := st.in_progress.erase canonical }, none)

/-- `traverse_recursive` with fuel counting the remaining depth budget.
Call sites maintain `fuel = maxDepth - depth`, so the fuel-0 branch is only
reached when the depth guard would fire anyway and returns the same
result. -/
def traverseFuel (cfg : TravConfig) (ctx : TravContext) :
    Nat → String → Nat → TravState → TravState × Option TraverseError
  | 0 => fun _ _ st => (st, none)
  | fuel + 1 => traverseStep cfg ctx (traverseFuel cfg ctx fuel)

/-- The fresh state `DependencyTraverser::new` starts from, with the graph
of `traverse` (line 332): the entry point is stored exactly as passed. -/
def initState (entry : String) : TravState :=
  ⟨[], [], 0, 0, 0, DependencyGraph.new entry⟩

/-- `DependencyTraverser::traverse`: runs the recursion from depth 0 on the
entry path as given (the CLI absolutizes but does not canonicalize it) and
returns the graph, or the error the entry-level recursion surfaced. -/
def traverse (cfg : TravConfig) (ctx : TravContext) (entry : String) :
    Except TraverseError DependencyGraph :=
  match traverseFuel cfg ctx cfg.maxDepth entry 0 (initState entry) with
  | (_, some e) => .error e
  | (st, none) => .ok st.graph

/-! ## Traversal invariants -/

/-- An OS-like `canonicalize` is idempotent: its outputs are fixed points. -/
def CanonIdem (fs : Fs) : Prop :=
  ∀ p q, fs.canonicalize p = some q → fs.canonicalize q = some q

/-- Every adjacency key and every cycle-set member is a fixed point of
`canonicalize`. -/
def KeysCanon (ctx : TravContext) (st : TravState) : Prop :=
  (∀ k ∈ st.graph.adj_list.map Prod.fst, ctx.fs.canonicalize k = some k) ∧
  (∀ c ∈ st.graph.circular_deps, ctx.fs.canonicalize c = some c)

/-- The invariant carried through the traversal: the entry point is never
rewritten, `visited` stays duplicate-free, and (for an idempotent
`canonicalize`) adjacency keys and cycle-set members stay canonical. -/
def TravInv (ctx : TravContext) (e : String) (st : TravState) : Prop :=
  st.graph.entry_point = e ∧ st.visited.Nodup ∧
    (CanonIdem ctx.fs → KeysCanon ctx st)

/-- `import './b'` at line 1 of the entry file. -/
def impB : ImportStatement := ⟨"./b", .esModule, 1, 1, "import './b'"⟩

/-- A second `import './b'` site, at line 2. -/
def impB2 : ImportStatement := ⟨"./b", .esModule, 2, 1, "import './b'"⟩

/-- `import './link'` at line 1 of the entry file. -/
def impLink : ImportStatement := ⟨"./link", .esModule, 1, 1, "import './link'"⟩

/-- Chain scenario filesystem: `/p/a.ts` imports `./b`, `/p/b.ts` is empty.
`pathExists` answers as the OS would on the literal strings the resolver
builds (`/p/./b.ts` names the same file as `/p/b.ts`). -/
def fsChain : Fs where
  readFile p := if p = "/p/a.ts" then some "import './b'"
                else if p = "/p/b.ts" then some "" else none
  pathExists p := p = "/p/./b.ts"
  isDirectory _ := false
  canonicalize p := if p = "/p/a.ts" ∨ p = "/p/b.ts" then some p else none

/-- Chain scenario context: no tsconfig, no exclusions, `/p/a.ts` parses to
one import of `./b` and `/p/b.ts` to none. -/
def ctxChain : TravContext where
  fs := fsChain
  tsconfigFor _ := none
  parseImports p _ := if p = "/p/a.ts" then some [impB] else some []
  shouldExclude _ := false

/-- Double-import scenario: `/p/a.ts` imports `./b` twice (lines 1 and 2). -/
def ctxTwice : TravContext where
  fs := fsChain
  tsconfigFor _ := none
  parseImports p _ := if p = "/p/a.ts" then some [impB, impB2] else some []
  shouldExclude _ := false

/-- Symlink scenario: `/p/a.ts` imports `./link`; on disk `/p/link.ts` is a
symlink to `/p/real.ts`, so `canonicalize` maps the former to the latter
and fixes every other path. -/
def fsLink : Fs where
  readFile p := if p = "/p/a.ts" then some "import './link'"
                else if p = "/p/real.ts" then some "" else none
  pathExists p := p = "/p/./link.ts"
  isDirectory _ := false
  canonicalize p := if p = "/p/link.ts" then some "/p/real.ts" else some p

/-- Symlink scenario context. -/
def ctxLink : TravContext where
  fs := fsLink
  tsconfigFor _ := none
  parseImports p _ := if p = "/p/a.ts" then some [impLink] else some []
  shouldExclude _ := false

/-- Symlinked-entry scenario: the entry `/p/elink.ts` is a symlink to
`/p/ereal.ts`, which has no imports. -/
def fsEntryLink : Fs where
  readFile p := if p = "/p/ereal.ts" then some "" else none
  pathExists _ := false
  isDirectory _ := false
  canonicalize p := if p = "/p/elink.ts" then some "/p/ereal.ts" else some p

/-- Symlinked-entry scenario context. -/
def ctxEntryLink : TravContext where
  fs := fsEntryLink
  tsconfigFor _ := none
  parseImports _ _ := some []
  shouldExclude _ := false

/-- Extension-search scenario filesystem: `/p/y` is a plain file; `/p/x` is
a directory with both `/p/x.ts` and `/p/x/index.ts` present; only `/p/z.tsx`
and `/p/z.ts` exist for the stem `/p/z`. -/
def fs6 : Fs where
  readFile _ := none
  pathExists p :=
    p = "/p/y" ∨ p = "/p/x" ∨ p = "/p/x.ts" ∨ p = "/p/x/index.ts" ∨
      p = "/p/z.tsx" ∨ p = "/p/z.ts"
  isDirectory p := p = "/p/x"
  canonicalize p := some p

/-- Asset-query scenario filesystem: the joined path
`/app/./logo.svg?react` exists (the claim's own hypothesis). -/
def fsC4 : Fs where
  readFile _ := none
  pathExists p := p = "/app/./logo.svg?react"
  isDirectory _ := false
  canonicalize p := some p

/-- A tsconfig whose alias pattern overlaps the `react` known-external
prefix. -/
def tcReactWidgets : TsConfig :=
  ⟨some "/project/src", [("react-widgets/*", ["widgets/*"])], "/project"⟩

/-- A tsconfig alias pattern free of every known-external prefix. -/
def tcAppWidgets : TsConfig :=
  ⟨some "/project/src", [("app-widgets/*", ["widgets/*"])], "/project"⟩

/-! ## Interleaving model of the visited-set entry protocol

Lines 411-422 of `traverser.rs` run, per exploration of a canonical path:
`visited.contains`, `in_progress.contains`, `visited.insert` (whose boolean
result is discarded), `in_progress.insert`, and then the exploration
itself.  Each `DashSet` operation is individually atomic, but nothing makes
the four-operation sequence atomic.  The model below runs two tasks that
process the same canonical path, at exactly that granularity: one shared
`visited`/`in_progress` flag pair for the contended path, a program counter
per task, and a count of `visited.insert` calls.  (In the shipped program
the sequence happens to run without suspension points inside one cooperative
task, which is what rules the race out there — not the insert result.) -/

/-- Shared state of the two-task entry protocol. -/
structure ProtoState where
  visitedFlag : Bool
  inProgressFlag : Bool
  insertCount : Nat
  pc1 : Nat
  pc2 : Nat
  explored1 : Bool
  explored2 : Bool
  circ1 : Bool
  circ2 : Bool
deriving DecidableEq

/-- Both tasks at the `visited.contains` check, nothing inserted. -/
def protoInit : ProtoState := ⟨false, false, 0, 0, 0, false, false, false, false⟩

/-- One atomic `DashSet` operation of task `t` (`true` = task 1): pc 0 is
`visited.contains` (stop when present), pc 1 is `in_progress.contains`
(mark circular and stop when present), pc 2 is `visited.insert` with the
result ignored, pc 3 is `in_progress.insert` after which the task explores
the node, pc 4 is done. -/
def protoStep (s : ProtoState) (t : Bool) : ProtoState :=
  let pc := if t then s.pc1 else s.pc2
  if pc = 0 then
    if s.visitedFlag then
      (if t then { s with pc1 := 4 } else { s with pc2 := 4 })
    else (if t then { s with pc1 := 1 } else { s with pc2 := 1 })
  else if pc = 1 then
    if s.inProgressFlag then
      (if t then { s with pc1 := 4, circ1 := true }
       else { s with pc2 := 4, circ2 := true })
    else (if t then { s with pc1 := 2 } else { s with pc2 := 2 })
  else if pc = 2 then
    (if t then { s with pc1 := 3, visitedFlag := true, insertCount := s.insertCount + 1 }
     else { s with pc2 := 3, visitedFlag := true, insertCount := s.insertCount + 1 })
  else if pc = 3 then
    (if t then { s with pc1 := 4, inProgressFlag := true, explored1 := true }
     else { s with pc2 := 4, inProgressFlag := true, explored2 := true })
  else s

/-- Run a schedule (list of task choices) from the initial state. -/
def protoRun (sched : List Bool) : ProtoState :=
  sched.foldl protoStep protoInit

/-- The state reached in the double-import run just before the second
(revisiting) child exploration of `/p/b.ts` starts: both files visited,
the entry still in progress, two files counted, both edges recorded. -/
def stMid5 : TravState :=
  ⟨["/p/a.ts", "/p/b.ts"], ["/p/a.ts"], 2, 0, 0,
   ⟨"/p/a.ts", [("/p/a.ts", [("/p/b.ts", impB), ("/p/b.ts", impB2)])], [], []⟩⟩

/-! ## Claim theorems -/

/-- The stripper ignores its fuel and flags on empty input. -/
theorem stripAux_nil (n : Nat) (inString escapeNext : Bool) :
    stripAux n inString escapeNext [] = [] := by
  cases n <;> rfl

/-- On comment-free input, the stripping state machine copies its input
verbatim. -/
theorem stripAux_eq_self (n : Nat) :
    ∀ (l : List Char) (inString escapeNext : Bool), l.length < n →
      commentFreeAux inString escapeNext l = true →
      stripAux n inString escapeNext l = l := by
  induction n with
  | zero => intro l _ _ h; omega
  | succ n ih =>
    intro l inString escapeNext hlen hcf
    cases l with
    | nil => exact stripAux_nil _ _ _
    | cons c rest =>
      have hr : rest.length < n := by simpa using Nat.lt_of_succ_lt_succ hlen
      simp only [commentFreeAux] at hcf
      simp only [stripAux]
      cases escapeNext with
      | true =>
        simp only [if_pos rfl] at hcf ⊢
        exact congrArg (c :: ·) (ih rest _ _ hr hcf)
      | false =>
        have hft : ¬ ((false : Bool) = true) := by simp
        rw [if_neg hft] at hcf ⊢
        split_ifs at hcf ⊢ with h2 h3 h4 h5
        · exact congrArg (c :: ·) (ih rest _ _ hr hcf)
        · obtain ⟨hc, _⟩ := h3
          subst hc
          exact congrArg _ (ih rest _ _ hr hcf)
        · obtain ⟨hc, _⟩ := h4
          subst hc
          exact congrArg _ (ih rest _ _ hr hcf)
        · obtain ⟨hc, _⟩ := h5
          subst hc
          cases rest with
          | nil =>
            simpa using stripAux_nil n inString false
          | cons c2 rest2 =>
            by_cases h6 : c2 = '/'
            · subst h6; simp at hcf
            · by_cases h7 : c2 = '*'
              · subst h7; simp at hcf
              · have hred1 : (match c2 :: rest2 with
                    | '/' :: _ => false
                    | '*' :: _ => false
                    | _ => commentFreeAux inString false (c2 :: rest2)) =
                      commentFreeAux inString false (c2 :: rest2) := by
                  split
                  · rename_i heq; exact absurd (by injection heq) h6
                  · rename_i heq; exact absurd (by injection heq) h7
                  · rfl
                rw [hred1] at hcf
                have hred2 : (match c2 :: rest2 with
                    | '/' :: rest2 =>
                      (match rest2.dropWhile (fun x => x ≠ '\n') with
                       | [] => ([] : List Char)
                       | _ :: rest3 => '\n' :: stripAux n inString false rest3)
                    | '*' :: rest2 => stripAux n inString false (dropBlockComment ' ' rest2)
                    | _ => '/' :: stripAux n inString false (c2 :: rest2)) =
                      '/' :: stripAux n inString false (c2 :: rest2) := by
                  split
                  · rename_i heq; exact absurd (by injection heq) h6
                  · rename_i heq; exact absurd (by injection heq) h7
                  · rfl
                rw [hred2]
                exact congrArg _ (ih _ _ _ hr hcf)
        · exact congrArg (c :: ·) (ih rest _ _ hr hcf)

theorem adjPush_keys (k : String) (e : String × ImportStatement) :
    ∀ (adj : List (String × List (String × ImportStatement))) (k' : String),
      k' ∈ (adjPush adj k e).map Prod.fst → k' ∈ adj.map Prod.fst ∨ k' = k := by
  intro adj
  induction adj with
  | nil => intro k' h; simp [adjPush] at h; exact Or.inr h
  | cons hd tl ih =>
    intro k' h
    obtain ⟨kh, es⟩ := hd
    simp only [adjPush] at h
    by_cases hk : kh = k
    · rw [if_pos hk] at h
      simp at h
      rcases h with h | h
      · exact Or.inl (by simp [h])
      · exact Or.inl (by simp; exact Or.inr h)
    · rw [if_neg hk] at h
      simp at h
      rcases h with h | h
      · exact Or.inl (by simp [h])
      · rcases ih k' (by simpa using h) with h' | h'
        · exact Or.inl (by simp; right; simpa using h')
        · exact Or.inr h'

theorem mark_circular_entry (g : DependencyGraph) (p : String) :
    (mark_circular g p).entry_point = g.entry_point := by
  unfold mark_circular; split <;> rfl

theorem mark_circular_adj (g : DependencyGraph) (p : String) :
    (mark_circular g p).adj_list = g.adj_list := by
  unfold mark_circular; split <;> rfl

theorem mark_circular_circ (g : DependencyGraph) (p c : String) :
    c ∈ (mark_circular g p).circular_deps → c ∈ g.circular_deps ∨ c = p := by
  unfold mark_circular; split
  · exact fun h => Or.inl h
  · intro h; simpa using h

theorem add_asset_entry (g : DependencyGraph) (p : String) :
    (add_asset g p).entry_point = g.entry_point := by
  unfold add_asset; split <;> rfl

theorem add_asset_adj (g : DependencyGraph) (p : String) :
    (add_asset g p).adj_list = g.adj_list := by
  unfold add_asset; split <;> rfl

theorem add_asset_circ (g : DependencyGraph) (p : String) :
    (add_asset g p).circular_deps = g.circular_deps := by
  unfold add_asset; split <;> rfl

/-- The import loop touches only the graph's adjacency list and asset set:
the sets, counters, entry point and cycle set are untouched, and every
adjacency key it adds is the current file. -/
theorem processImports_inv (ctx : TravContext) (canonical : String) :
    ∀ (imps : List ImportStatement) (st : TravState),
      ((processImports ctx canonical imps st).1.visited = st.visited) ∧
      ((processImports ctx canonical imps st).1.in_progress = st.in_progress) ∧
      ((processImports ctx canonical imps st).1.fileCount = st.fileCount) ∧
      ((processImports ctx canonical imps st).1.graph.entry_point =
        st.graph.entry_point) ∧
      ((processImports ctx canonical imps st).1.graph.circular_deps =
        st.graph.circular_deps) ∧
      (∀ k, k ∈ (processImports ctx canonical imps st).1.graph.adj_list.map Prod.fst →
        k ∈ st.graph.adj_list.map Prod.fst ∨ k = canonical) := by
  intro imps
  induction imps with
  | nil => intro st; exact ⟨rfl, rfl, rfl, rfl, rfl, fun k hk => Or.inl hk⟩
  | cons imp rest ih =>
    intro st
    simp only [processImports]
    cases hres : resolveImport ctx canonical imp with
    | none => exact ih st
    | some r =>
      by_cases hl : r.is_local = true
      · by_cases ha : r.is_asset = true
        · simp only [hl, ha, if_true]
          have h := ih { st with graph := add_asset (add_edge st.graph canonical r.path imp) r.path }
          refine ⟨h.1, h.2.1, h.2.2.1, ?_, ?_, ?_⟩
          · rw [h.2.2.2.1]; simp [add_asset_entry, add_edge]
          · rw [h.2.2.2.2.1]; simp [add_asset_circ, add_edge]
          · intro k hk
            rcases h.2.2.2.2.2 k hk with hk' | hk'
            · rw [add_asset_adj] at hk'
              simp only [add_edge] at hk'
              exact adjPush_keys canonical (r.path, imp) st.graph.adj_list k hk'
            · exact Or.inr hk'
        · simp only [hl, ha, if_true, if_false]
          have h := ih { st with graph := add_edge st.graph canonical r.path imp }
          rcases hpr : processImports ctx canonical rest
            { st with graph := add_edge st.graph canonical r.path imp } with ⟨st', pending⟩
          rw [hpr] at h
          simp only [hpr]
          refine ⟨h.1, h.2.1, h.2.2.1, h.2.2.2.1, h.2.2.2.2.1, ?_⟩
          intro k hk
          rcases h.2.2.2.2.2 k hk with hk' | hk'
          · exact adjPush_keys canonical (r.path, imp) st.graph.adj_list k hk'
          · exact Or.inr hk'
      · simp only [hl, if_false]
        exact ih st

/-- Any state predicate preserved by the step function is preserved by the
sequential child join. -/
theorem runChildrenAux_preserve (P : TravState → Prop)
    (step : String → TravState → TravState × Option TraverseError)
    (h : ∀ c st, P st → P (step c st).1) :
    ∀ (cs : List String) (st : TravState), P st → P (runChildrenAux step cs st).1 := by
  intro cs
  induction cs with
  | nil => intro st hp; simpa [runChildrenAux] using hp
  | cons c cs ih =>
    intro st hp
    simp only [runChildrenAux]
    cases hstep : step c st with
    | mk st' e? =>
      cases e? with
      | some e => simpa using (hstep ▸ h c st hp : P (st', some e).1)
      | none =>
        have := h c st hp
        rw [hstep] at this
        exact ih st' this

theorem record_error_visited (st : TravState) :
    (record_error st).1.visited = st.visited := by
  simp only [record_error]
  split
  · rfl
  · split <;> rfl

theorem record_error_graph (st : TravState) :
    (record_error st).1.graph = st.graph := by
  simp only [record_error]
  split
  · rfl
  · split <;> rfl

/-- The circuit breaker only touches its counters, so it preserves the
invariant. -/
theorem record_error_inv (ctx : TravContext) (e : String) (st : TravState)
    (h : TravInv ctx e st) : TravInv ctx e (record_error st).1 := by
  have h1 := record_error_visited st
  have h2 := record_error_graph st
  refine ⟨?_, ?_, ?_⟩
  · rw [h2]; exact h.1
  · rw [h1]; exact h.2.1
  · intro hid
    obtain ⟨hadj, hcirc⟩ := h.2.2 hid
    simp only [KeysCanon]
    rw [h2]
    exact ⟨hadj, hcirc⟩

/-- `record_success` only resets a counter, so it preserves the
invariant definitionally. -/
theorem record_success_inv (ctx : TravContext) (e : String) (st : TravState)
    (h : TravInv ctx e st) : TravInv ctx e (record_success st) := h

/-- The import loop preserves the invariant: the only adjacency key it adds
is the canonical path of the current file, itself a `canonicalize` output. -/
theorem processImports_inv_trav (ctx : TravContext) (e canonical file : String)
    (hcanon : ctx.fs.canonicalize file = some canonical)
    (imports : List ImportStatement) (st : TravState) (h : TravInv ctx e st) :
    TravInv ctx e (processImports ctx canonical imports st).1 := by
  have hpi := processImports_inv ctx canonical imports st
  refine ⟨?_, ?_, ?_⟩
  · rw [hpi.2.2.2.1]; exact h.1
  · rw [hpi.1]; exact h.2.1
  · intro hid
    obtain ⟨hadj, hcirc⟩ := h.2.2 hid
    constructor
    · intro k hk
      rcases hpi.2.2.2.2.2 k hk with hk' | hk'
      · exact hadj k hk'
      · subst hk'; exact hid file k hcanon
    · intro c hc
      rw [hpi.2.2.2.2.1] at hc
      exact hcirc c hc

/-- One traversal step preserves `TravInv`, assuming the recursive calls
do. -/
theorem traverseStep_inv (cfg : TravConfig) (ctx : TravContext) (e : String)
    (recur : String → Nat → TravState → TravState × Option TraverseError)
    (hrec : ∀ f d s, TravInv ctx e s → TravInv ctx e (recur f d s).1) :
    ∀ (file : String) (depth : Nat) (st : TravState), TravInv ctx e st →
      TravInv ctx e (traverseStep cfg ctx recur file depth st).1 := by
  intro file depth st hinv
  simp only [traverseStep]
  split
  · exact hinv
  split
  · exact hinv
  split
  · exact hinv
  split
  · exact hinv
  split
  · exact hinv
  rename_i canonical hcanon
  split
  · exact hinv
  split
  · -- in-progress hit: mark the node circular
    rename_i hip
    refine ⟨?_, hinv.2.1, ?_⟩
    · rw [mark_circular_entry]; exact hinv.1
    · intro hid
      obtain ⟨hadj, hcirc⟩ := hinv.2.2 hid
      constructor
      · intro k hk; rw [mark_circular_adj] at hk; exact hadj k hk
      · intro c hc
        rcases mark_circular_circ _ _ _ hc with hc' | hc'
        · exact hcirc c hc'
        · subst hc'; exact hid file c hcanon
  rename_i hvis hip
  have hnotmem : canonical ∉ st.visited := by
    intro hmem
    exact hvis (by simpa using hmem)
  have hnodup2 : (st.visited ++ [canonical]).Nodup := by
    refine List.Nodup.append hinv.2.1 (List.nodup_singleton _) ?_
    intro a ha hb
    simp at hb
    subst hb
    exact hnotmem ha
  have hinv2 : TravInv ctx e
      { st with fileCount := st.fileCount + 1,
                visited := st.visited ++ [canonical],
                in_progress := st.in_progress ++ [canonical] } :=
    ⟨hinv.1, hnodup2, hinv.2.2⟩
  -- from here the state only changes in ways TravInv tolerates
  split
  · exact hinv2
  split
  · -- read error: the circuit breaker records it
    split
    · rename_i st' err heq
      have hre := record_error_inv ctx e _ hinv2
      rw [heq] at hre
      exact hre
    · rename_i st' heq
      have hre := record_error_inv ctx e _ hinv2
      rw [heq] at hre
      exact hre
  rename_i content hread
  split
  · -- parse error: the circuit breaker records it
    split
    · rename_i st' err heq
      have hre := record_error_inv ctx e _ (record_success_inv ctx e _ hinv2)
      rw [heq] at hre
      exact hre
    · rename_i st' heq
      have hre := record_error_inv ctx e _ (record_success_inv ctx e _ hinv2)
      rw [heq] at hre
      exact hre
  rename_i imports hparse
  refine runChildrenAux_preserve (TravInv ctx e) (fun f s => recur f (depth + 1) s)
    (fun c s hs => hrec c (depth + 1) s hs) _ _ ?_
  exact processImports_inv_trav ctx e canonical file hcanon imports _
    (record_success_inv ctx e _ (record_success_inv ctx e _ hinv2))

/-- The traversal preserves `TravInv` at every fuel. -/
theorem traverseFuel_inv (cfg : TravConfig) (ctx : TravContext) (e : String) :
    ∀ (fuel : Nat) (file : String) (depth : Nat) (st : TravState),
      TravInv ctx e st → TravInv ctx e (traverseFuel cfg ctx fuel file depth st).1 := by
  intro fuel
  induction fuel with
  | zero => intro file depth st hinv; exact hinv
  | succ fuel ih =>
    intro file depth st hinv
    exact traverseStep_inv cfg ctx e (traverseFuel cfg ctx fuel) ih file depth st hinv


/-- `String.mk` is the inverse of `String.data`. -/
theorem asString_data (s : String) : List.asString s.data = s := rfl

/-- C10: every `ResolvedImport` that `JsResolver::resolve` returns as
`Some` has `is_local = true`; externals and unresolvable specifiers are
encoded as `None`, so the flag carries no information at this interface. -/
theorem c10_resolve_some_is_local (tsconfig : Option TsConfig) (fs : Fs)
    (specifier from_file : String) (r : ResolvedImport)
    (h : resolve tsconfig fs specifier from_file = some r) :
    r.is_local = true := by
  simp only [resolve] at h
  split at h
  · exact Option.noConfusion h
  split at h
  · split at h
    · obtain rfl := Option.some.inj h
      rfl
    · exact Option.noConfusion h
  · split at h
    · rename_i x heq
      obtain rfl := Option.some.inj h
      split at heq
      · split at heq
        · split at heq
          · obtain rfl := Option.some.inj heq
            rfl
          · exact Option.noConfusion heq
        · exact Option.noConfusion heq
      · exact Option.noConfusion heq
    · split at h
      · obtain rfl := Option.some.inj h
        rfl
      · exact Option.noConfusion h

/-- C10 witness: the chain scenario's resolution of `./b` is `Some` and
carries `is_local = true`. -/
theorem c10_witness :
    resolve none fsChain "./b" "/p/a.ts" = some ⟨"/p/b.ts", true, false⟩ ∧
    (⟨"/p/b.ts", true, false⟩ : ResolvedImport).is_local = true :=
  ⟨rfl, c10_resolve_some_is_local none fsChain "./b" "/p/a.ts" _ rfl⟩

/-- C3 counterexample: `react-widgets/button` matches the project alias
pattern `react-widgets/*`, yet `is_external_package` classifies it as
external (the `KNOWN_EXTERNALS` check, which sees the `react` prefix, runs
before the alias check), and `resolve` returns `None` for it. -/
theorem c3_counterexample :
    (resolve_alias tcReactWidgets "react-widgets/button").isSome = true ∧
    is_external_package (some tcReactWidgets) "react-widgets/button"
      "/project/a.ts" = true ∧
    resolve (some tcReactWidgets) fsChain "react-widgets/button"
      "/project/a.ts" = none :=
  ⟨rfl, rfl, rfl⟩

/-- C3 amended: a specifier matching a project-config alias is never
classified external, provided it does not begin with `node_modules/` or
with one of the `KNOWN_EXTERNALS` prefixes (those two checks run first and
win). -/
theorem c3_amended (tc : TsConfig) (specifier from_file : String)
    (hal : (resolve_alias tc specifier).isSome = true)
    (h1 : strStartsWith specifier "node_modules/" = false)
    (h2 : KNOWN_EXTERNALS.any (fun e => strStartsWith specifier e) = false) :
    is_external_package (some tc) specifier from_file = false := by
  simp only [is_external_package, h1, h2, Bool.false_eq_true, if_false]
  split
  · rfl
  · simp [hal]

/-- C3 witness: the alias pattern `app-widgets/*` has no known-external
prefix, and its specifiers are indeed not external. -/
theorem c3_witness :
    (resolve_alias tcAppWidgets "app-widgets/button").isSome = true ∧
    is_external_package (some tcAppWidgets) "app-widgets/button"
      "/project/a.ts" = false :=
  ⟨rfl, c3_amended tcAppWidgets "app-widgets/button" "/project/a.ts"
    rfl rfl (by decide)⟩

/-- C4: the claim is right and the code wrong: for `./logo.svg?react` the
extension early-return in `is_asset_import` fires on the extension
`svg?react` (not in the table) before the `?`-suffix branch its own comment
documents with exactly this example, so the specifier is not classified as
an asset; with the joined path existing, `resolve` returns it as a plain
local file with `is_asset = false` instead of a local asset. -/
theorem c4_asset_query_not_asset :
    is_asset_import "./logo.svg?react" = false ∧
    resolve none fsC4 "./logo.svg?react" "/app/main.tsx" =
      some ⟨"/app/logo.svg?react", true, false⟩ :=
  ⟨rfl, rfl⟩

/-- C6: the extension search: (1) an existing non-directory at the
candidate itself always wins; (2) with the candidate an existing directory
(so `x/index.ts` is reachable) but `x.ts` present, `x.ts` wins over the
directory-index fallback; (3) with both `x.tsx` and `x.ts` present, `tsx`
wins by list order. -/
theorem c6_extension_search (fs : Fs) (p : String) :
    (fs.pathExists p = true → fs.isDirectory p = false →
      resolve_file_with_extensions fs p = some p) ∧
    (fs.pathExists p = true → fs.isDirectory p = true →
      fs.pathExists (withExtension p "tsx") = false →
      fs.pathExists (withExtension p "ts") = true →
      fs.isDirectory (withExtension p "ts") = false →
      fs.pathExists (pathJoin p "index.ts") = true →
      resolve_file_with_extensions fs p = some (withExtension p "ts")) ∧
    (fs.pathExists p = false →
      fs.pathExists (withExtension p "tsx") = true →
      fs.isDirectory (withExtension p "tsx") = false →
      resolve_file_with_extensions fs p = some (withExtension p "tsx")) := by
  refine ⟨?_, ?_, ?_⟩
  · intro h1 h2
    simp only [resolve_file_with_extensions]
    rw [if_pos ⟨h1, by simp [h2]⟩]
  · intro h1 h2 htsx hts htsd hidx
    simp only [resolve_file_with_extensions, EXTENSIONS, List.findSome?_cons,
      htsx, hts, htsd, h1, h2]
    simp
  · intro h1 htsx htsxd
    simp only [resolve_file_with_extensions, EXTENSIONS, List.findSome?_cons,
      h1, htsx, htsxd]
    simp

/-- C6 witness: in `fs6`, the file `/p/y` resolves to itself; `/p/x` (a
directory with both `/p/x.ts` and `/p/x/index.ts`) resolves to `/p/x.ts`;
`/p/z` (with `/p/z.tsx` and `/p/z.ts`) resolves to `/p/z.tsx`. -/
theorem c6_witness :
    resolve_file_with_extensions fs6 "/p/y" = some "/p/y" ∧
    resolve_file_with_extensions fs6 "/p/x" = some "/p/x.ts" ∧
    resolve_file_with_extensions fs6 "/p/z" = some "/p/z.tsx" :=
  ⟨(c6_extension_search fs6 "/p/y").1 (by decide) (by decide),
   (c6_extension_search fs6 "/p/x").2.1 (by decide) (by decide) (by decide)
     (by decide) (by decide) (by decide),
   (c6_extension_search fs6 "/p/z").2.2 (by decide) (by decide) (by decide)⟩

/-- C9: stripping comments from a comment-free JSON text is the
identity. -/
theorem c9_strip_comments_identity (s : String) (h : commentFree s = true) :
    strip_json_comments s = s := by
  unfold strip_json_comments
  rw [stripAux_eq_self (s.data.length + 1) s.data false false (Nat.lt_succ_self _) h]
  exact asString_data s

/-- C9 witness: a comment-free JSON text (with a `//` inside a string
literal, which must not count as a comment) is returned verbatim. -/
theorem c9_witness :
    commentFree "[1, \"a//b\", 2]" = true ∧
    strip_json_comments "[1, \"a//b\", 2]" = "[1, \"a//b\", 2]" :=
  ⟨by decide, c9_strip_comments_identity "[1, \"a//b\", 2]" (by decide)⟩

/-- C1 counterexample: with `max-files = 1` and an entry whose single
specifier resolves to a local non-asset file, `traverse` does not fail:
the child's file-limit error is swallowed at the parent's `try_join_all`
(lines 495-500 log and discard it) and the graph is returned. -/
theorem c1_counterexample :
    traverse ⟨50, 1⟩ ctxChain "/p/a.ts" =
      .ok ⟨"/p/a.ts", [("/p/a.ts", [("/p/b.ts", impB)])], [], []⟩ := rfl

/-- C1 amended: the file-limit error is raised in the child frame (its
result is `fileLimit 2 1`), but the parent's child-join logs and discards
it, so `traverse` succeeds; a limit error surfaces from `traverse` only
when raised in the entry frame itself, as with `max-files = 0`. -/
theorem c1_amended :
    traverseFuel ⟨50, 1⟩ ctxChain 49 "/p/b.ts" 1
      ⟨["/p/a.ts"], ["/p/a.ts"], 1, 0, 0,
       ⟨"/p/a.ts", [("/p/a.ts", [("/p/b.ts", impB)])], [], []⟩⟩ =
      (⟨["/p/a.ts"], ["/p/a.ts"], 2, 0, 0,
        ⟨"/p/a.ts", [("/p/a.ts", [("/p/b.ts", impB)])], [], []⟩⟩,
       some (.fileLimit 2 1)) ∧
    traverse ⟨50, 1⟩ ctxChain "/p/a.ts" =
      .ok ⟨"/p/a.ts", [("/p/a.ts", [("/p/b.ts", impB)])], [], []⟩ ∧
    traverse ⟨50, 0⟩ ctxChain "/p/a.ts" = .error (.fileLimit 1 0) :=
  ⟨rfl, rfl, rfl⟩

/-- C5 counterexample: revisits do contribute to the file counter.  In the
double-import run, `/p/b.ts` is explored once and revisited once, yet the
final counter is 3 (entry, child, revisit) while only two files were
visited; the revisit performed the guard work, including the
fetch-and-increment, before the visited check stopped it. -/
theorem c5_counterexample :
    traverseFuel ⟨50, 10000⟩ ctxTwice 50 "/p/a.ts" 0 (initState "/p/a.ts") =
      (⟨["/p/a.ts", "/p/b.ts"], [], 3, 0, 0,
        ⟨"/p/a.ts", [("/p/a.ts", [("/p/b.ts", impB), ("/p/b.ts", impB2)])], [], []⟩⟩,
       none) := rfl

/-- C5 amended: an exploration whose canonical path is already visited
performs the guard work first — in particular it increments the shared file
counter (so revisits do count toward `max-files`) — and only then the
visited check stops it, leaving everything else unchanged. -/
theorem c5_amended (cfg : TravConfig) (ctx : TravContext) (fuel : Nat)
    (file canonical : String) (depth : Nat) (st : TravState)
    (h1 : depth < cfg.maxDepth)
    (h2 : ctx.shouldExclude file = false)
    (h3 : (PathScore.from_path file st.graph.entry_point).should_skip = false)
    (h4 : st.fileCount < cfg.maxFiles)
    (h5 : ctx.fs.canonicalize file = some canonical)
    (h6 : st.visited.contains canonical = true) :
    traverseFuel cfg ctx (fuel + 1) file depth st =
      ({ st with fileCount := st.fileCount + 1 }, none) := by
  simp only [traverseFuel, traverseStep]
  rw [if_neg (Nat.not_le.mpr h1)]
  rw [if_neg (by simp [h2])]
  rw [if_neg (by simp [h3])]
  rw [if_neg (Nat.not_le.mpr h4)]
  rw [h5]
  simp only [h6, if_true]

/-- C5 witness: the revisiting exploration of `/p/b.ts` from the
double-import run increments the counter from 2 to 3 and changes nothing
else. -/
theorem c5_witness :
    (1 < 50 ∧ ctxTwice.shouldExclude "/p/b.ts" = false ∧
      (PathScore.from_path "/p/b.ts" stMid5.graph.entry_point).should_skip = false ∧
      stMid5.fileCount < 10000 ∧
      ctxTwice.fs.canonicalize "/p/b.ts" = some "/p/b.ts" ∧
      stMid5.visited.contains "/p/b.ts" = true) ∧
    traverseFuel ⟨50, 10000⟩ ctxTwice 49 "/p/b.ts" 1 stMid5 =
      ({ stMid5 with fileCount := 3 }, none) :=
  ⟨⟨by decide, by decide, by decide, by decide, by decide, by decide⟩,
   c5_amended ⟨50, 10000⟩ ctxTwice 48 "/p/b.ts" "/p/b.ts" 1 stMid5
     (by decide) (by decide) (by decide) (by decide) (by decide) (by decide)⟩

/-- C2 counterexample: the resolver absolutizes but does not canonicalize,
so an edge target can be a symlink path that `canonicalize` maps elsewhere:
in the symlink scenario the single edge's target is `/p/link.ts`, whose
canonical form is `/p/real.ts`. -/
theorem c2_counterexample :
    traverse ⟨50, 10000⟩ ctxLink "/p/a.ts" =
      .ok ⟨"/p/a.ts", [("/p/a.ts", [("/p/link.ts", impLink)])], [], []⟩ ∧
    fsLink.canonicalize "/p/link.ts" = some "/p/real.ts" ∧
    "/p/real.ts" ≠ "/p/link.ts" :=
  ⟨rfl, rfl, by decide⟩

/-- C2 amended: for a filesystem whose `canonicalize` is idempotent (as
the OS operation is), every adjacency-list key and every cycle-set member
of a completed traversal is canonical (a `canonicalize` fixed point); edge
targets and asset-set members, in contrast, are only absolutized resolver
outputs and need not be canonical when symlinks are involved. -/
theorem c2_amended (cfg : TravConfig) (ctx : TravContext) (entry : String)
    (g : DependencyGraph) (hidem : CanonIdem ctx.fs)
    (h : traverse cfg ctx entry = .ok g) :
    (∀ k ∈ g.adj_list.map Prod.fst, ctx.fs.canonicalize k = some k) ∧
    (∀ c ∈ g.circular_deps, ctx.fs.canonicalize c = some c) := by
  have hinv0 : TravInv ctx entry (initState entry) := by
    refine ⟨rfl, List.nodup_nil, fun _ => ⟨?_, ?_⟩⟩
    · intro k hk
      simp [initState, DependencyGraph.new] at hk
    · intro c hc
      simp [initState, DependencyGraph.new] at hc
  have hinv := traverseFuel_inv cfg ctx entry cfg.maxDepth entry 0
    (initState entry) hinv0
  unfold traverse at h
  split at h
  · exact Except.noConfusion h
  · rename_i st heq
    obtain rfl := Except.ok.inj h
    rw [heq] at hinv
    exact hinv.2.2 hidem

/-- C2 witness: the symlink scenario's filesystem has an idempotent
`canonicalize`, and the single adjacency key `/p/a.ts` of its traversal is
canonical. -/
theorem c2_witness :
    CanonIdem ctxLink.fs ∧
    (∀ k ∈ (⟨"/p/a.ts", [("/p/a.ts", [("/p/link.ts", impLink)])], [], []⟩ :
        DependencyGraph).adj_list.map Prod.fst,
      ctxLink.fs.canonicalize k = some k) := by
  have hidem : CanonIdem ctxLink.fs := by
    intro p q hpq
    simp only [ctxLink, fsLink] at hpq ⊢
    by_cases hp : p = "/p/link.ts"
    · rw [if_pos hp] at hpq
      obtain rfl := Option.some.inj hpq
      rw [if_neg (by decide)]
    · rw [if_neg hp] at hpq
      obtain rfl := Option.some.inj hpq
      rw [if_neg hp]
  exact ⟨hidem,
    (c2_amended ⟨50, 10000⟩ ctxLink "/p/a.ts" _ hidem rfl).1⟩

/-- C7 counterexample: with a symlinked entry (raw `/p/elink.ts`, canonical
`/p/ereal.ts`) and no imports, the completed graph contains the canonical
entry path nowhere: no source key is created and `entry_point` holds the
raw path; likewise `max-depth = 0` yields an empty adjacency list with no
source key for the entry. -/
theorem c7_counterexample :
    traverse ⟨50, 10000⟩ ctxEntryLink "/p/elink.ts" =
      .ok ⟨"/p/elink.ts", [], [], []⟩ ∧
    fsEntryLink.canonicalize "/p/elink.ts" = some "/p/ereal.ts" ∧
    "/p/ereal.ts" ≠ "/p/elink.ts" ∧
    traverse ⟨0, 10000⟩ ctxChain "/p/a.ts" = .ok ⟨"/p/a.ts", [], [], []⟩ :=
  ⟨rfl, rfl, by decide, rfl⟩

/-- C7 amended: what every completed traversal includes is the entry path
exactly as passed, stored in the graph's `entry_point` attribute (even with
no outgoing edges, `max-depth = 0`, or an excluded entry); the canonical
entry path appears only as a source key, and only when the entry
contributes at least one edge. -/
theorem c7_amended (cfg : TravConfig) (ctx : TravContext) (entry : String)
    (g : DependencyGraph) (h : traverse cfg ctx entry = .ok g) :
    g.entry_point = entry := by
  have hinv0 : TravInv ctx entry (initState entry) := by
    refine ⟨rfl, List.nodup_nil, fun _ => ⟨?_, ?_⟩⟩
    · intro k hk
      simp [initState, DependencyGraph.new] at hk
    · intro c hc
      simp [initState, DependencyGraph.new] at hc
  have hinv := traverseFuel_inv cfg ctx entry cfg.maxDepth entry 0
    (initState entry) hinv0
  unfold traverse at h
  split at h
  · exact Except.noConfusion h
  · rename_i st heq
    obtain rfl := Except.ok.inj h
    rw [heq] at hinv
    exact hinv.1

/-- C7 witness: the `max-depth = 0` traversal returns a graph whose
`entry_point` is the entry as passed. -/
theorem c7_witness :
    traverse ⟨0, 10000⟩ ctxChain "/p/a.ts" = .ok ⟨"/p/a.ts", [], [], []⟩ ∧
    (⟨"/p/a.ts", [], [], []⟩ : DependencyGraph).entry_point = "/p/a.ts" :=
  ⟨rfl, c7_amended ⟨0, 10000⟩ ctxChain "/p/a.ts" _ rfl⟩

/-- C8 counterexample: at the claim's own granularity — each `DashSet`
operation individually atomic — the contains/contains/insert/insert
sequence of lines 411-422 does not enforce a single explorer: under the
interleaved schedule both tasks pass their contains checks before either
inserts, both insert (two `visited.insert` calls) and both proceed to
explore the node.  No insert-if-absent result gates exploration (the
insert's boolean result is discarded in the sources). -/
theorem c8_counterexample :
    protoRun [true, false, true, false, true, true, false, false] =
      ⟨true, true, 2, 4, 4, true, true, false, false⟩ := by decide

/-- C8 amended: in the program's actual execution the check-and-insert
sequence runs without a suspension point inside the single traversal task,
so each canonical path enters `visited` at most once — the sequential
determinization keeps `visited` duplicate-free from the initial state — and
when one task's sequence completes before the other's begins, exactly one
task explores (one insert, one explorer, the other stopped by its
`visited.contains`). -/
theorem c8_amended :
    (∀ (cfg : TravConfig) (ctx : TravContext) (entry : String),
      (traverseFuel cfg ctx cfg.maxDepth entry 0 (initState entry)).1.visited.Nodup) ∧
    protoRun [true, true, true, true, false] =
      ⟨true, true, 1, 4, 4, true, false, false, false⟩ := by
  constructor
  · intro cfg ctx entry
    have hinv0 : TravInv ctx entry (initState entry) := by
      refine ⟨rfl, List.nodup_nil, fun _ => ⟨?_, ?_⟩⟩
      · intro k hk
        simp [initState, DependencyGraph.new] at hk
      · intro c hc
        simp [initState, DependencyGraph.new] at hc
    exact (traverseFuel_inv cfg ctx entry cfg.maxDepth entry 0
      (initState entry) hinv0).2.1
  · decide

end Packlet
